import Mathlib

/-!
Verification of the read-through cache loader of the `proto` dashboard
(`app/repositories/financial_data_repository.py`) and its API-key
configuration (`app/config/settings.py`).

Shallow embedding conventions:
* Timestamps are `Int` epoch seconds.  `datetime.utcnow()` becomes an explicit
  `now` parameter; the ISO-8601 `updated_at` string stored in DynamoDB is
  modelled directly as the timestamp it denotes, since the code only ever
  round-trips it through `datetime.fromisoformat`.
* The DynamoDB table is a list of items keyed by (symbol, dataset);
  `get_item` / `put_item` model the DynamoDB calls (put replaces the whole
  item for the key).
* The Pydantic model class passed as `model : Type[Any]` is a pair of a
  row-validator `parse` (`model(**row)`, `none` = `ValidationError` raised)
  and a serializer `dict` (`rec.dict()`).
* The `requests.get` + `raise_for_status` + `r.json()` pipeline is a function
  from the request URL to `Except RemoteError (List Row)`; each failure kind
  (timeout, non-2xx status, unparsable body) raises, modelled by `.error`.
* A Python function that can raise returns an `Except`/`Option`; `load`
  returns a `LoadOutcome` carrying the result, the table after the call and
  the URL of the remote GET when one was issued.
-/

namespace Proto

/-- One failure mode of the `requests.get(url, timeout=10)` /
`r.raise_for_status()` / `r.json()` pipeline in `load`. -/
inductive RemoteError where
  | timeout
  | httpError (status : Nat)
  | invalidJson
deriving DecidableEq, Repr

/-- An exception escaping `FinancialDataRepository.load`. -/
inductive LoadError where
  | remote (e : RemoteError)
  | validation
deriving DecidableEq, Repr

/-- The Pydantic model class `model : Type[Any]` passed to `load`:
`parse` is `model(**row)` (`none` = `ValidationError`), `dict` is
`rec.dict()`. -/
structure Model (Row Rec : Type) where
  parse : Row → Option Rec
  dict : Rec → Row

/-- A DynamoDB item of the cache table: PK `symbol`, SK `dataset`,
attributes `updated_at`, `data`, `ttl` (`FinancialDataRepository.load`,
step "Store in DynamoDB"). -/
structure Item (Row : Type) where
  symbol : String
  dataset : String
  updated_at : Int
  data : List Row
  ttl : Int
deriving DecidableEq, Repr

/-- The DynamoDB cache table. -/
abbrev Table (Row : Type) := List (Item Row)

/-- `table.get_item(Key={"symbol": symbol, "dataset": dataset})["Item"]`:
the item with the given composite key, if present. -/
def get_item {Row : Type} (t : Table Row) (symbol dataset : String) :
    Option (Item Row) :=
  t.find? (fun it => it.symbol == symbol && it.dataset == dataset)

/-- `table.put_item(Item=it)`: DynamoDB replaces the whole item stored
under `it`'s primary key. -/
def put_item {Row : Type} (t : Table Row) (it : Item Row) : Table Row :=
  it :: t.filter (fun x => !(x.symbol == it.symbol && x.dataset == it.dataset))

/-- `str.lstrip("&")`. -/
def lstripAmp (s : String) : String :=
  ⟨s.data.dropWhile (fun c => c = '&')⟩

/-- `str.rstrip("/")`. -/
def rstripSlash (s : String) : String :=
  ⟨(s.data.reverse.dropWhile (fun c => c = '/')).reverse⟩

/-- The state built by `FinancialDataRepository.__init__` that the loader
logic reads (`table_name` / `aws_region` only select the boto3 table, which
is the explicit `Table` argument of `load` here). `max_age` is
`timedelta(hours=max_cache_age_hours)` in seconds. -/
structure Repo where
  api_key : String
  base_url : String
  max_age : Int
deriving DecidableEq, Repr

/-- `FinancialDataRepository.__init__`: stores the API key unchanged,
strips trailing slashes from `base_url`, converts the max cache age to a
duration. No validation of any argument is performed. -/
def repoInit (api_key base_url : String) (max_cache_age_hours : Int) : Repo :=
  ⟨api_key, rstripSlash base_url, max_cache_age_hours * 3600⟩

/-- `FinancialDataRepository._is_fresh`: `(utcnow() - updated) < max_age`. -/
def is_fresh (repo : Repo) (now updated : Int) : Bool :=
  now - updated < repo.max_age

/-- `FinancialDataRepository._build_url`. -/
def build_url (repo : Repo) (endpoint symbol : String) (extra : String) :
    String :=
  let extra := if extra ≠ "" then "&" ++ lstripAmp extra else ""
  repo.base_url ++ "/" ++ endpoint ++ "?symbol=" ++ symbol ++ "&apikey=" ++
    repo.api_key ++ extra

/-- The `if limit:` block of `load`: Python appends `f"&limit={limit}"` to
`extra_params` exactly when `limit` is truthy, i.e. neither `None` nor 0. -/
def extraWithLimit (extra_params : String) : Option Int → String
  | none => extra_params
  | some n => if n = 0 then extra_params else
      extra_params ++ ("&limit=" ++ toString n)

/-- The list comprehension `[model(**row) for row in rows]`: Python raises
the first `ValidationError` (`none`), aborting the whole comprehension. -/
def parseRows {Row Rec : Type} (m : Model Row Rec) : List Row → Option (List Rec)
  | [] => some []
  | row :: rows =>
    match m.parse row with
    | none => none
    | some x => (parseRows m rows).map (fun l => x :: l)

/-- `if item and self._is_fresh(item["updated_at"])`: the cached item when
the call is a cache hit, `none` on a miss (absent or stale). -/
def cacheDecision {Row : Type} (repo : Repo) (t : Table Row) (now : Int)
    (symbol endpoint : String) : Option (Item Row) :=
  match get_item t symbol endpoint with
  | some it => if is_fresh repo now it.updated_at then some it else none
  | none => none

/-- What one call of `load` did: the value returned or exception raised,
the table contents after the call, and the URL of the remote GET when one
was issued (`none` = no remote call). -/
structure LoadOutcome (Row Rec : Type) where
  result : Except LoadError (List Rec)
  table : Table Row
  requested_url : Option String

/-- The cache-miss tail of `load` (everything after the early `return` of
the hit path): build the URL, call the API, parse every row, store the
fresh item, return the records.  `ttl` is
`int((utcnow() + timedelta(days=ttl_days)).timestamp())`. -/
def loadMiss {Row Rec : Type} (repo : Repo) (t : Table Row) (now : Int)
    (remote : String → Except RemoteError (List Row))
    (symbol endpoint : String) (m : Model Row Rec)
    (extra_params : String) (ttl_days : Int) : LoadOutcome Row Rec :=
  let url := build_url repo endpoint symbol extra_params
  match remote url with
  | .error e => ⟨.error (.remote e), t, some url⟩
  | .ok json_data =>
    match parseRows m json_data with
    | none => ⟨.error .validation, t, some url⟩
    | some records =>
      let ttl_value := now + ttl_days * 86400
      ⟨.ok records,
        put_item t ⟨symbol, endpoint, now, records.map m.dict, ttl_value⟩,
        some url⟩

/-- `FinancialDataRepository.load`. -/
def load {Row Rec : Type} (repo : Repo) (t : Table Row) (now : Int)
    (remote : String → Except RemoteError (List Row))
    (symbol endpoint : String) (m : Model Row Rec)
    (limit : Option Int) (extra_params : String) (ttl_days : Int) :
    LoadOutcome Row Rec :=
  let extra_params := extraWithLimit extra_params limit
  match cacheDecision repo t now symbol endpoint with
  | some it =>
    match parseRows m it.data with
    | none => ⟨.error .validation, t, none⟩
    | some recs => ⟨.ok recs, t, none⟩
  | none => loadMiss repo t now remote symbol endpoint m extra_params ttl_days

/-- Outcome of evaluating `st.secrets["API_KEY"]` in
`app/config/settings.py`: the key is present, or the secrets file is
missing (`FileNotFoundError`), or the file exists without the key
(`KeyError`). -/
inductive SecretsOutcome where
  | found (key : String)
  | fileNotFound
  | keyMissing
deriving DecidableEq, Repr

/-- A Python exception escaping `get_api_key`. -/
inductive PyException where
  | keyError
deriving DecidableEq, Repr

/-- `app/config/settings.py: get_api_key`: returns the secret when
present, returns a hardcoded key on `FileNotFoundError`, and lets any
`KeyError` propagate. -/
def get_api_key : SecretsOutcome → Except PyException String
  | .found k => .ok k
  | .fileNotFound => .ok "SasT1HkUMNVFoRdQqorB8GXlZ0q6KDuE"
  | .keyMissing => .error .keyError

/-- The number of records returned by a `load` call that returned
normally (`none` when the call raised). -/
def okLength {Row Rec : Type} : LoadOutcome Row Rec → Option Nat
  | ⟨Except.ok recs, _, _⟩ => some recs.length
  | _ => none

/-- An `Item` with its storage-expiry attribute blanked, to compare two
tables up to the `ttl` attribute. -/
def stripTtl {Row : Type} (it : Item Row) : Item Row :=
  ⟨it.symbol, it.dataset, it.updated_at, it.data, 0⟩

/-- A concrete Pydantic-style model over `Int` rows: even rows validate,
odd rows raise `ValidationError`. -/
def evenModel : Model Int Int :=
  ⟨fun r => if r % 2 = 0 then some r else none, fun x => x⟩

/-- A concrete model in which every row validates. -/
def idModel : Model Int Int := ⟨fun r => some r, fun x => x⟩

/-- A repository built with the default base URL and the default 24-hour
freshness window. -/
def demoRepo : Repo := repoInit "KEY" "https://financialmodelingprep.com/stable" 24

theorem dropWhile_append_char {α : Type} [DecidableEq α] (p : α → Bool) (l1 l2 : List α) :
    (l1 ++ l2).dropWhile p =
      if l1.dropWhile p = [] then l2.dropWhile p else l1.dropWhile p ++ l2 := by
  induction l1 with
  | nil => simp
  | cons a l ih =>
    by_cases h : p a
    · simpa [List.dropWhile_cons, h] using ih
    · simp [List.dropWhile_cons, h]

theorem parseRows_length {Row Rec : Type} (m : Model Row Rec) :
    ∀ (rows : List Row) (recs : List Rec),
      parseRows m rows = some recs → recs.length = rows.length := by
  intro rows
  induction rows with
  | nil =>
    intro recs h
    simp only [parseRows, Option.some.injEq] at h
    simp [← h]
  | cons r rs ih =>
    intro recs h
    simp only [parseRows] at h
    rcases hp : m.parse r with _ | x <;> rw [hp] at h
    · simp at h
    · rcases Option.map_eq_some'.mp h with ⟨l, hl, rfl⟩
      simp [ih l hl]

theorem get_item_put_item {Row : Type} (t : Table Row) (it : Item Row) :
    get_item (put_item t it) it.symbol it.dataset = some it := by
  simp [get_item, put_item, List.find?]

theorem put_item_unique_key {Row : Type} (t : Table Row) (it : Item Row) :
    (put_item t it).filter
      (fun x => x.symbol == it.symbol && x.dataset == it.dataset) = [it] := by
  simp [put_item, List.filter_filter]

theorem load_eq_loadMiss {Row Rec : Type} {repo : Repo} {t : Table Row} {now : Int}
    {remote : String → Except RemoteError (List Row)} {symbol endpoint : String}
    {m : Model Row Rec} {limit : Option Int} {extra_params : String} {ttl_days : Int}
    (hmiss : cacheDecision repo t now symbol endpoint = none) :
    load repo t now remote symbol endpoint m limit extra_params ttl_days =
      loadMiss repo t now remote symbol endpoint m (extraWithLimit extra_params limit) ttl_days := by
  simp [load, hmiss]

theorem load_hit {Row Rec : Type} {repo : Repo} {t : Table Row} {now : Int}
    {remote : String → Except RemoteError (List Row)} {symbol endpoint : String}
    {m : Model Row Rec} {limit : Option Int} {extra_params : String} {ttl_days : Int}
    {it : Item Row} {recs : List Rec}
    (hhit : cacheDecision repo t now symbol endpoint = some it)
    (hparse : parseRows m it.data = some recs) :
    load repo t now remote symbol endpoint m limit extra_params ttl_days =
      ⟨Except.ok recs, t, none⟩ := by
  simp [load, hhit, hparse]

theorem loadMiss_remote_error {Row Rec : Type} {repo : Repo} {t : Table Row} {now : Int}
    {remote : String → Except RemoteError (List Row)} {symbol endpoint : String}
    {m : Model Row Rec} {extra_params : String} {ttl_days : Int} {e : RemoteError}
    (hfail : remote (build_url repo endpoint symbol extra_params) = Except.error e) :
    loadMiss repo t now remote symbol endpoint m extra_params ttl_days =
      ⟨Except.error (LoadError.remote e), t,
        some (build_url repo endpoint symbol extra_params)⟩ := by
  simp [loadMiss, hfail]

theorem loadMiss_ok {Row Rec : Type} {repo : Repo} {t : Table Row} {now : Int}
    {remote : String → Except RemoteError (List Row)} {symbol endpoint : String}
    {m : Model Row Rec} {extra_params : String} {ttl_days : Int}
    {rows : List Row} {recs : List Rec}
    (hremote : remote (build_url repo endpoint symbol extra_params) = Except.ok rows)
    (hparse : parseRows m rows = some recs) :
    loadMiss repo t now remote symbol endpoint m extra_params ttl_days =
      ⟨Except.ok recs,
        put_item t ⟨symbol, endpoint, now, recs.map m.dict, now + ttl_days * 86400⟩,
        some (build_url repo endpoint symbol extra_params)⟩ := by
  simp [loadMiss, hremote, hparse]

theorem loadMiss_validation {Row Rec : Type} {repo : Repo} {t : Table Row} {now : Int}
    {remote : String → Except RemoteError (List Row)} {symbol endpoint : String}
    {m : Model Row Rec} {extra_params : String} {ttl_days : Int} {rows : List Row}
    (hremote : remote (build_url repo endpoint symbol extra_params) = Except.ok rows)
    (hparse : parseRows m rows = (none : Option (List Rec))) :
    loadMiss repo t now remote symbol endpoint m extra_params ttl_days =
      ⟨Except.error LoadError.validation, t,
        some (build_url repo endpoint symbol extra_params)⟩ := by
  simp [loadMiss, hremote, hparse]

/-- Rows that all parse round-trip through `dict` unchanged. -/
theorem parseRows_map_dict {Row Rec : Type} (m : Model Row Rec)
    (hround : ∀ x, m.parse (m.dict x) = some x) :
    ∀ recs : List Rec, parseRows m (recs.map m.dict) = some recs := by
  intro recs
  induction recs with
  | nil => rfl
  | cons a l ih => simp [parseRows, hround a, ih]

/-- Every miss path issues exactly one remote GET, at the built URL. -/
theorem loadMiss_requested_url {Row Rec : Type} {repo : Repo} {t : Table Row} {now : Int}
    {remote : String → Except RemoteError (List Row)} {symbol endpoint : String}
    {m : Model Row Rec} {extra_params : String} {ttl_days : Int} :
    (loadMiss repo t now remote symbol endpoint m extra_params ttl_days).requested_url =
      some (build_url repo endpoint symbol extra_params) := by
  unfold loadMiss
  rcases hr : remote (build_url repo endpoint symbol extra_params) with e | rows
  · simp [hr]
  · rcases hp : parseRows m rows with _ | recs <;> simp [hr, hp]

/-- A string is empty exactly when its character list is. -/
theorem string_eq_empty_iff (s : String) : s = "" ↔ s.data = [] := by
  constructor
  · rintro rfl; rfl
  · intro h
    apply String.ext
    simpa using h

/-- `lstrip("&")` leaves anything starting with `limit=` unchanged. -/
theorem dropWhile_limit_tail (s : String) :
    ("limit=" ++ s).data.dropWhile (fun c => c = '&') = ("limit=" ++ s).data := by
  rw [String.data_append]
  have h : ("limit=" : String).data = 'l' :: "imit=".data := rfl
  rw [h, List.cons_append, List.dropWhile_cons]
  simp

/-- Shape of the URL built on a miss when `extra` has no leading ampersand
and a `&limit=`-suffix was appended by the `if limit:` block. -/
theorem build_url_extra_limit (repo : Repo) (endpoint symbol extra s : String)
    (hex : lstripAmp extra = extra) :
    build_url repo endpoint symbol (extra ++ ("&limit=" ++ s)) =
      repo.base_url ++ "/" ++ endpoint ++ "?symbol=" ++ symbol ++ "&apikey=" ++ repo.api_key ++
        (if extra = "" then "" else "&" ++ extra) ++ ("&limit=" ++ s) := by
  have hdex : extra.data.dropWhile (fun c => c = '&') = extra.data := congrArg String.data hex
  have hne : (extra ++ ("&limit=" ++ s)) ≠ "" := by
    intro h
    rw [string_eq_empty_iff, String.data_append] at h
    rcases List.append_eq_nil.mp h with ⟨h1, h2⟩
    rw [String.data_append] at h2
    rcases List.append_eq_nil.mp h2 with ⟨h3, h4⟩
    exact absurd h3 (by decide)
  unfold build_url
  rw [if_pos hne]
  by_cases hempty : extra = ""
  · subst hempty
    rw [if_pos rfl]
    apply String.ext
    have hdrop : lstripAmp ("" ++ ("&limit=" ++ s)) = ⟨("limit=" ++ s).data⟩ := by
      apply String.ext
      show (("" ++ ("&limit=" ++ s)).data).dropWhile (fun c => c = '&') = ("limit=" ++ s).data
      have h1 : ("" ++ ("&limit=" ++ s)).data = '&' :: ("limit=" ++ s).data := by
        rw [String.data_append, String.data_append, String.data_append]
        rfl
      rw [h1, List.dropWhile_cons]
      simp [dropWhile_limit_tail]
    rw [hdrop]
    simp [String.data_append]
  · rw [if_neg hempty]
    apply String.ext
    have hdrop : lstripAmp (extra ++ ("&limit=" ++ s)) =
        ⟨extra.data ++ ("&limit=" ++ s).data⟩ := by
      apply String.ext
      show ((extra ++ ("&limit=" ++ s)).data).dropWhile (fun c => c = '&') =
        extra.data ++ ("&limit=" ++ s).data
      rw [String.data_append, dropWhile_append_char, hdex]
      rw [if_neg (by rwa [← string_eq_empty_iff])]
    rw [hdrop]
    simp [String.data_append]

/-- For any `extra_params` whatsoever, a truthy `limit` makes the built URL
end in `&limit={limit}`. -/
theorem build_url_limit_suffix (repo : Repo) (endpoint symbol extra : String) (n : Int)
    (hn : n ≠ 0) :
    ∃ pre, build_url repo endpoint symbol (extraWithLimit extra (some n)) =
      pre ++ ("&limit=" ++ toString n) := by
  have hewl : extraWithLimit extra (some n) = extra ++ ("&limit=" ++ toString n) := by
    simp [extraWithLimit, hn]
  rw [hewl]
  have hne : (extra ++ ("&limit=" ++ toString n)) ≠ "" := by
    intro h
    rw [string_eq_empty_iff, String.data_append] at h
    rcases List.append_eq_nil.mp h with ⟨h1, h2⟩
    rw [String.data_append] at h2
    rcases List.append_eq_nil.mp h2 with ⟨h3, h4⟩
    exact absurd h3 (by decide)
  unfold build_url
  rw [if_pos hne]
  by_cases hempty : extra.data.dropWhile (fun c => c = '&') = []
  · refine ⟨repo.base_url ++ "/" ++ endpoint ++ "?symbol=" ++ symbol ++ "&apikey=" ++
      repo.api_key, ?_⟩
    apply String.ext
    have hdrop : lstripAmp (extra ++ ("&limit=" ++ toString n)) =
        ⟨("limit=" ++ toString n).data⟩ := by
      apply String.ext
      show ((extra ++ ("&limit=" ++ toString n)).data).dropWhile (fun c => c = '&') =
        ("limit=" ++ toString n).data
      rw [String.data_append, dropWhile_append_char, if_pos hempty]
      have h1 : ("&limit=" ++ toString n).data = '&' :: ("limit=" ++ toString n).data := by
        rw [String.data_append, String.data_append]
        rfl
      rw [h1, List.dropWhile_cons]
      simp [dropWhile_limit_tail]
    rw [hdrop]
    simp [String.data_append]
  · refine ⟨repo.base_url ++ "/" ++ endpoint ++ "?symbol=" ++ symbol ++ "&apikey=" ++
      repo.api_key ++ ("&" ++ ⟨extra.data.dropWhile (fun c => c = '&')⟩), ?_⟩
    apply String.ext
    have hdrop : lstripAmp (extra ++ ("&limit=" ++ toString n)) =
        ⟨extra.data.dropWhile (fun c => c = '&') ++ ("&limit=" ++ toString n).data⟩ := by
      apply String.ext
      show ((extra ++ ("&limit=" ++ toString n)).data).dropWhile (fun c => c = '&') =
        extra.data.dropWhile (fun c => c = '&') ++ ("&limit=" ++ toString n).data
      rw [String.data_append, dropWhile_append_char, if_neg hempty]
    rw [hdrop]
    simp [String.data_append]

/-- C1 (amended): on a cache miss, when every row of the remote response
passes validation, `load` returns exactly one Record per row (no row is
skipped) and the stored entry contains exactly those rows; but when any
row fails validation, the whole batch aborts: `load` raises the
`ValidationError` and writes nothing. -/
theorem C1_row_failure_aborts_batch {Row Rec : Type} (repo : Repo) (t : Table Row) (now : Int)
    (remote : String → Except RemoteError (List Row)) (symbol endpoint : String)
    (m : Model Row Rec) (limit : Option Int) (extra_params : String) (ttl_days : Int)
    (rows : List Row)
    (hmiss : cacheDecision repo t now symbol endpoint = none)
    (hremote : remote (build_url repo endpoint symbol (extraWithLimit extra_params limit)) =
      Except.ok rows) :
    (∀ recs, parseRows m rows = some recs →
      (load repo t now remote symbol endpoint m limit extra_params ttl_days).result =
        Except.ok recs ∧
      recs.length = rows.length ∧
      get_item (load repo t now remote symbol endpoint m limit extra_params ttl_days).table
          symbol endpoint =
        some ⟨symbol, endpoint, now, recs.map m.dict, now + ttl_days * 86400⟩) ∧
    (parseRows m rows = (none : Option (List Rec)) →
      load repo t now remote symbol endpoint m limit extra_params ttl_days =
        ⟨Except.error LoadError.validation, t,
          some (build_url repo endpoint symbol (extraWithLimit extra_params limit))⟩) := by
  constructor
  · intro recs hp
    rw [load_eq_loadMiss hmiss, loadMiss_ok hremote hp]
    exact ⟨rfl, parseRows_length m rows recs hp,
      get_item_put_item t ⟨symbol, endpoint, now, recs.map m.dict, now + ttl_days * 86400⟩⟩
  · intro hp
    rw [load_eq_loadMiss hmiss, loadMiss_validation hremote hp]

/-- C1 counterexample: a response of N = 3 rows of which M = 1 row fails
validation makes `load` raise `ValidationError`: it does not return the
claimed N − M = 2 Records, and a single malformed row aborts the whole
batch. -/
theorem C1_counterexample :
    (load demoRepo [] 0 (fun _ => Except.ok [0, 1, 2]) "AAPL" "key-metrics" evenModel
        none "" 3).result = Except.error LoadError.validation ∧
    okLength (load demoRepo [] 0 (fun _ => Except.ok [0, 1, 2]) "AAPL" "key-metrics" evenModel
        none "" 3) ≠ some 2 :=
  ⟨rfl, by decide⟩

/-- C1 witness: an all-valid 3-row response loads as 3 Records. -/
theorem C1_witness :
    (load demoRepo [] 0 (fun _ => Except.ok [0, 2, 4]) "AAPL" "key-metrics" evenModel
        none "" 3).result = Except.ok [0, 2, 4] :=
  ((C1_row_failure_aborts_batch demoRepo [] 0 (fun _ => Except.ok [0, 2, 4]) "AAPL"
    "key-metrics" evenModel none "" 3 [0, 2, 4] (by decide) rfl).1 [0, 2, 4] (by decide)).1

/-- C2: with a stored entry present, the call is a cache hit (no remote
request, no table write, stored rows deserialized and returned) exactly
when `now - updatedAt` is strictly below the freshness window; otherwise a
remote GET is issued. -/
theorem C2_freshness_window {Row Rec : Type} (repo : Repo) (t : Table Row) (now : Int)
    (remote : String → Except RemoteError (List Row)) (symbol endpoint : String)
    (m : Model Row Rec) (limit : Option Int) (extra_params : String) (ttl_days : Int)
    (it : Item Row)
    (hfound : get_item t symbol endpoint = some it) :
    (now - it.updated_at < repo.max_age →
      (load repo t now remote symbol endpoint m limit extra_params ttl_days).requested_url = none ∧
      (load repo t now remote symbol endpoint m limit extra_params ttl_days).table = t ∧
      ∀ recs, parseRows m it.data = some recs →
        (load repo t now remote symbol endpoint m limit extra_params ttl_days).result =
          Except.ok recs) ∧
    (¬ now - it.updated_at < repo.max_age →
      (load repo t now remote symbol endpoint m limit extra_params ttl_days).requested_url =
        some (build_url repo endpoint symbol (extraWithLimit extra_params limit))) := by
  constructor
  · intro hfresh
    have hhit : cacheDecision repo t now symbol endpoint = some it := by
      simp [cacheDecision, hfound, is_fresh, hfresh]
    refine ⟨?_, ?_, ?_⟩
    · rcases hp : parseRows m it.data with _ | recs <;> simp [load, hhit, hp]
    · rcases hp : parseRows m it.data with _ | recs <;> simp [load, hhit, hp]
    · intro recs hp
      rw [load_hit hhit hp]
  · intro hstale
    have hmiss : cacheDecision repo t now symbol endpoint = none := by
      simp [cacheDecision, hfound, is_fresh, hstale]
    rw [load_eq_loadMiss hmiss]
    exact loadMiss_requested_url

/-- C2 witness: with the default 24h window (86400 s), an entry aged
86399 s (window − 1 s) is a hit and an entry aged 86401 s (window + 1 s)
triggers a remote fetch. -/
theorem C2_witness :
    (load demoRepo [⟨"AAPL", "ratios", 0, [2, 4], 7⟩] 86399 (fun _ => Except.ok [6]) "AAPL"
        "ratios" evenModel none "" 3).requested_url = none ∧
    (load demoRepo [⟨"AAPL", "ratios", 0, [2, 4], 7⟩] 86401 (fun _ => Except.ok [6]) "AAPL"
        "ratios" evenModel none "" 3).requested_url =
      some (build_url demoRepo "ratios" "AAPL" (extraWithLimit "" none)) := by
  constructor
  · exact ((C2_freshness_window demoRepo [⟨"AAPL", "ratios", 0, [2, 4], 7⟩] 86399
      (fun _ => Except.ok [6]) "AAPL" "ratios" evenModel none "" 3
      ⟨"AAPL", "ratios", 0, [2, 4], 7⟩ rfl).1 (by decide)).1
  · exact (C2_freshness_window demoRepo [⟨"AAPL", "ratios", 0, [2, 4], 7⟩] 86401
      (fun _ => Except.ok [6]) "AAPL" "ratios" evenModel none "" 3
      ⟨"AAPL", "ratios", 0, [2, 4], 7⟩ rfl).2 (by decide)

/-- C3: when the remote fetch fails on a cache miss, `load` raises the
remote error and the table is exactly the table before the call: no write
happens and no fallback to the stale entry occurs. -/
theorem C3_remote_failure_is_atomic {Row Rec : Type} (repo : Repo) (t : Table Row) (now : Int)
    (remote : String → Except RemoteError (List Row)) (symbol endpoint : String)
    (m : Model Row Rec) (limit : Option Int) (extra_params : String) (ttl_days : Int)
    (e : RemoteError)
    (hmiss : cacheDecision repo t now symbol endpoint = none)
    (hfail : remote (build_url repo endpoint symbol (extraWithLimit extra_params limit)) =
      Except.error e) :
    load repo t now remote symbol endpoint m limit extra_params ttl_days =
      ⟨Except.error (LoadError.remote e), t,
        some (build_url repo endpoint symbol (extraWithLimit extra_params limit))⟩ := by
  rw [load_eq_loadMiss hmiss]
  exact loadMiss_remote_error hfail

/-- C3 witness: a timeout on a stale-entry miss leaves the stale entry
untouched and raises. -/
theorem C3_witness :
    load demoRepo [⟨"AAPL", "income-statement", -100000, [8], 5⟩] 0
      (fun _ => Except.error RemoteError.timeout) "AAPL" "income-statement" evenModel none "" 3 =
    ⟨Except.error (LoadError.remote RemoteError.timeout),
      [⟨"AAPL", "income-statement", -100000, [8], 5⟩],
      some (build_url demoRepo "income-statement" "AAPL" (extraWithLimit "" none))⟩ :=
  C3_remote_failure_is_atomic demoRepo [⟨"AAPL", "income-statement", -100000, [8], 5⟩] 0
    (fun _ => Except.error RemoteError.timeout) "AAPL" "income-statement" evenModel none "" 3
    RemoteError.timeout (by decide) rfl

/-- C4: a miss-triggered refresh replaces the stored entry wholesale: the
key afterwards maps to exactly the fresh rows, exactly one entry exists
for the key, and a subsequent fresh call is a hit returning exactly the
fresh Records with no further write. -/
theorem C4_refresh_overwrites {Row Rec : Type} (repo : Repo) (t : Table Row) (now : Int)
    (remote : String → Except RemoteError (List Row)) (symbol endpoint : String)
    (m : Model Row Rec) (limit : Option Int) (extra_params : String) (ttl_days : Int)
    (rows : List Row) (recs : List Rec) (now2 : Int)
    (hmiss : cacheDecision repo t now symbol endpoint = none)
    (hremote : remote (build_url repo endpoint symbol (extraWithLimit extra_params limit)) =
      Except.ok rows)
    (hparse : parseRows m rows = some recs)
    (hround : ∀ x, m.parse (m.dict x) = some x)
    (hfresh : now2 - now < repo.max_age) :
    get_item (load repo t now remote symbol endpoint m limit extra_params ttl_days).table
        symbol endpoint =
      some ⟨symbol, endpoint, now, recs.map m.dict, now + ttl_days * 86400⟩ ∧
    ((load repo t now remote symbol endpoint m limit extra_params ttl_days).table.filter
      (fun x => x.symbol == symbol && x.dataset == endpoint)).length = 1 ∧
    load repo (load repo t now remote symbol endpoint m limit extra_params ttl_days).table now2
        remote symbol endpoint m limit extra_params ttl_days =
      ⟨Except.ok recs,
        (load repo t now remote symbol endpoint m limit extra_params ttl_days).table, none⟩ := by
  have h1 : load repo t now remote symbol endpoint m limit extra_params ttl_days =
      ⟨Except.ok recs,
        put_item t ⟨symbol, endpoint, now, recs.map m.dict, now + ttl_days * 86400⟩,
        some (build_url repo endpoint symbol (extraWithLimit extra_params limit))⟩ := by
    rw [load_eq_loadMiss hmiss, loadMiss_ok hremote hparse]
  rw [h1]
  refine ⟨get_item_put_item t _, ?_, ?_⟩
  · have h2 := put_item_unique_key t
      ⟨symbol, endpoint, now, recs.map m.dict, now + ttl_days * 86400⟩
    exact congrArg List.length h2 ▸ rfl
  · have hget := get_item_put_item t
      ⟨symbol, endpoint, now, recs.map m.dict, now + ttl_days * 86400⟩
    have hhit2 : cacheDecision repo
        (put_item t ⟨symbol, endpoint, now, recs.map m.dict, now + ttl_days * 86400⟩) now2
        symbol endpoint =
        some ⟨symbol, endpoint, now, recs.map m.dict, now + ttl_days * 86400⟩ := by
      simp [cacheDecision, hget, is_fresh, hfresh]
    exact load_hit hhit2 (parseRows_map_dict m hround recs)

/-- C4 witness: a store holding 5 rows refreshed by a 3-row fetch serves
exactly 3 Records on the next cache hit. -/
theorem C4_witness :
    okLength (load demoRepo
      ((load demoRepo [⟨"AAPL", "balance-sheet-statement", -200000, [1, 2, 3, 4, 5], 0⟩] 0
        (fun _ => Except.ok [10, 20, 30]) "AAPL" "balance-sheet-statement" idModel
        none "" 3).table) 100
      (fun _ => Except.ok [10, 20, 30]) "AAPL" "balance-sheet-statement" idModel
      none "" 3) = some 3 := by
  have h := C4_refresh_overwrites demoRepo
    [⟨"AAPL", "balance-sheet-statement", -200000, [1, 2, 3, 4, 5], 0⟩] 0
    (fun _ => Except.ok [10, 20, 30]) "AAPL" "balance-sheet-statement" idModel none "" 3
    [10, 20, 30] [10, 20, 30] 100 (by decide) rfl rfl (fun x => rfl) (by decide)
  rw [h.2.2]
  rfl

/-- C5: with a stored entry whose `updatedAt` equals the current time,
`load` is a pure cache hit — it returns the deserialized stored rows,
leaves the table untouched and issues no remote request — and calling it
twice in succession yields the same outcome both times. -/
theorem C5_cache_hit_idempotent {Row Rec : Type} (repo : Repo) (t : Table Row) (now : Int)
    (remote : String → Except RemoteError (List Row)) (symbol endpoint : String)
    (m : Model Row Rec) (limit : Option Int) (extra_params : String) (ttl_days : Int)
    (it : Item Row) (recs : List Rec)
    (hfound : get_item t symbol endpoint = some it)
    (hupd : it.updated_at = now)
    (hpos : 0 < repo.max_age)
    (hparse : parseRows m it.data = some recs) :
    load repo t now remote symbol endpoint m limit extra_params ttl_days =
      ⟨Except.ok recs, t, none⟩ ∧
    load repo (load repo t now remote symbol endpoint m limit extra_params ttl_days).table now
        remote symbol endpoint m limit extra_params ttl_days =
      ⟨Except.ok recs, t, none⟩ := by
  have hhit : cacheDecision repo t now symbol endpoint = some it := by
    simp [cacheDecision, hfound, is_fresh, hupd, hpos]
  have h1 : load repo t now remote symbol endpoint m limit extra_params ttl_days =
      ⟨Except.ok recs, t, none⟩ := load_hit hhit hparse
  exact ⟨h1, by rw [h1]; exact h1⟩

/-- C5 witness: two consecutive hits on an entry with `updatedAt` = now
return equal Record sequences with no remote call and no write. -/
theorem C5_witness :
    load demoRepo [⟨"AAPL", "cash-flow-statement", 50, [2, 4], 9⟩] 50 (fun _ => Except.ok [6])
        "AAPL" "cash-flow-statement" evenModel none "" 3 =
      ⟨Except.ok [2, 4], [⟨"AAPL", "cash-flow-statement", 50, [2, 4], 9⟩], none⟩ ∧
    load demoRepo (load demoRepo [⟨"AAPL", "cash-flow-statement", 50, [2, 4], 9⟩] 50
        (fun _ => Except.ok [6]) "AAPL" "cash-flow-statement" evenModel none "" 3).table 50
        (fun _ => Except.ok [6]) "AAPL" "cash-flow-statement" evenModel none "" 3 =
      ⟨Except.ok [2, 4], [⟨"AAPL", "cash-flow-statement", 50, [2, 4], 9⟩], none⟩ :=
  C5_cache_hit_idempotent demoRepo [⟨"AAPL", "cash-flow-statement", 50, [2, 4], 9⟩] 50
    (fun _ => Except.ok [6]) "AAPL" "cash-flow-statement" evenModel none "" 3
    ⟨"AAPL", "cash-flow-statement", 50, [2, 4], 9⟩ [2, 4] rfl rfl (by decide) (by decide)

/-- C6: two `load` calls differing only in `ttl_days` return the same
result, make the same remote-call decision, and leave tables equal up to
the `ttl` attribute stamped on the written entry — the freshness decision
never reads `ttl_days` or the stored `ttl`. -/
theorem C6_ttl_days_noninterference {Row Rec : Type} (repo : Repo) (t : Table Row) (now : Int)
    (remote : String → Except RemoteError (List Row)) (symbol endpoint : String)
    (m : Model Row Rec) (limit : Option Int) (extra_params : String) (ttl1 ttl2 : Int) :
    (load repo t now remote symbol endpoint m limit extra_params ttl1).result =
      (load repo t now remote symbol endpoint m limit extra_params ttl2).result ∧
    (load repo t now remote symbol endpoint m limit extra_params ttl1).requested_url =
      (load repo t now remote symbol endpoint m limit extra_params ttl2).requested_url ∧
    (load repo t now remote symbol endpoint m limit extra_params ttl1).table.map stripTtl =
      (load repo t now remote symbol endpoint m limit extra_params ttl2).table.map stripTtl := by
  rcases hc : cacheDecision repo t now symbol endpoint with _ | it
  · rw [load_eq_loadMiss hc, load_eq_loadMiss hc]
    rcases hr : remote (build_url repo endpoint symbol (extraWithLimit extra_params limit)) with
      e | rows
    · rw [loadMiss_remote_error hr, loadMiss_remote_error hr]
      exact ⟨rfl, rfl, rfl⟩
    · rcases hp : parseRows m rows with _ | recs
      · rw [loadMiss_validation hr hp, loadMiss_validation hr hp]
        exact ⟨rfl, rfl, rfl⟩
      · rw [loadMiss_ok hr hp, loadMiss_ok hr hp]
        refine ⟨rfl, rfl, ?_⟩
        simp [put_item, stripTtl]
  · rcases hp : parseRows m it.data with _ | recs
    · simp [load, hc, hp]
    · rw [load_hit hc hp, load_hit hc hp]
      exact ⟨rfl, rfl, rfl⟩

/-- C7 (amended): a remote response of zero rows loads as an empty Record
sequence and still writes an empty-records entry; but a nonempty response
whose rows fail validation makes `load` raise instead of returning empty
and caching. -/
theorem C7_empty_fetch_cached {Row Rec : Type} (repo : Repo) (t : Table Row) (now : Int)
    (remote : String → Except RemoteError (List Row)) (symbol endpoint : String)
    (m : Model Row Rec) (limit : Option Int) (extra_params : String) (ttl_days : Int)
    (rows : List Row)
    (hmiss : cacheDecision repo t now symbol endpoint = none)
    (hremote : remote (build_url repo endpoint symbol (extraWithLimit extra_params limit)) =
      Except.ok rows) :
    (rows = [] →
      (load repo t now remote symbol endpoint m limit extra_params ttl_days).result =
        Except.ok ([] : List Rec) ∧
      get_item (load repo t now remote symbol endpoint m limit extra_params ttl_days).table
          symbol endpoint =
        some ⟨symbol, endpoint, now, ([] : List Row), now + ttl_days * 86400⟩) ∧
    (∀ r rs, rows = r :: rs → m.parse r = (none : Option Rec) →
      load repo t now remote symbol endpoint m limit extra_params ttl_days =
        ⟨Except.error LoadError.validation, t,
          some (build_url repo endpoint symbol (extraWithLimit extra_params limit))⟩) := by
  constructor
  · rintro rfl
    have hp : parseRows m ([] : List Row) = some ([] : List Rec) := rfl
    rw [load_eq_loadMiss hmiss, loadMiss_ok hremote hp]
    exact ⟨rfl, get_item_put_item t ⟨symbol, endpoint, now, List.map m.dict [],
      now + ttl_days * 86400⟩⟩
  · rintro r rs rfl hr
    have hp : parseRows m (r :: rs) = (none : Option (List Rec)) := by
      simp [parseRows, hr]
    rw [load_eq_loadMiss hmiss, loadMiss_validation hremote hp]

/-- C7 counterexample: a 1-row response whose only row fails validation
makes `load` raise `ValidationError`; it returns no empty sequence and
writes no entry, contrary to the claim. -/
theorem C7_counterexample :
    (load demoRepo [] 0 (fun _ => Except.ok [1]) "AAPL" "ratios" evenModel none "" 3).result =
      Except.error LoadError.validation ∧
    okLength (load demoRepo [] 0 (fun _ => Except.ok [1]) "AAPL" "ratios" evenModel
      none "" 3) ≠ some 0 ∧
    get_item (load demoRepo [] 0 (fun _ => Except.ok [1]) "AAPL" "ratios" evenModel
      none "" 3).table "AAPL" "ratios" = none :=
  ⟨rfl, by decide, rfl⟩

/-- C7 witness: a zero-row response returns no Records and still caches an
empty-records entry with ttl = now + 3 days. -/
theorem C7_witness :
    (load demoRepo [] 0 (fun _ => Except.ok ([] : List Int)) "AAPL" "ratios" evenModel
        none "" 3).result = Except.ok ([] : List Int) ∧
    get_item (load demoRepo [] 0 (fun _ => Except.ok ([] : List Int)) "AAPL" "ratios" evenModel
        none "" 3).table "AAPL" "ratios" = some ⟨"AAPL", "ratios", 0, [], 259200⟩ := by
  have h := (C7_empty_fetch_cached demoRepo [] 0 (fun _ => Except.ok ([] : List Int)) "AAPL"
    "ratios" evenModel none "" 3 [] rfl rfl).1 rfl
  refine ⟨h.1, ?_⟩
  rw [h.2]
  norm_num

/-- C8: on a cache miss with a truthy `limit` and extra parameters with no
leading ampersand, the requested URL is exactly
`{baseUrl}/{endpoint}?symbol={symbol}&apikey={apiKey}` followed by
`&{extra_params}` (when nonempty) and `&limit={limit}`; and on a cache hit
the whole outcome is independent of `limit`. -/
theorem C8_request_url {Row Rec : Type} (repo : Repo) (t : Table Row) (now : Int)
    (remote : String → Except RemoteError (List Row)) (symbol endpoint : String)
    (m : Model Row Rec) (extra_params : String) (ttl_days : Int) (lim : Int)
    (hex : lstripAmp extra_params = extra_params)
    (hlim : lim ≠ 0) :
    (cacheDecision repo t now symbol endpoint = none →
      (load repo t now remote symbol endpoint m (some lim) extra_params ttl_days).requested_url =
        some (repo.base_url ++ "/" ++ endpoint ++ "?symbol=" ++ symbol ++ "&apikey=" ++
          repo.api_key ++ (if extra_params = "" then "" else "&" ++ extra_params) ++
          ("&limit=" ++ toString lim))) ∧
    (∀ it, cacheDecision repo t now symbol endpoint = some it →
      ∀ l1 l2 : Option Int,
        load repo t now remote symbol endpoint m l1 extra_params ttl_days =
          load repo t now remote symbol endpoint m l2 extra_params ttl_days) := by
  constructor
  · intro hmiss
    rw [load_eq_loadMiss hmiss, loadMiss_requested_url]
    have hewl : extraWithLimit extra_params (some lim) =
        extra_params ++ ("&limit=" ++ toString lim) := by
      simp [extraWithLimit, hlim]
    rw [hewl, build_url_extra_limit repo endpoint symbol extra_params (toString lim) hex]
  · intro it hhit l1 l2
    rcases hp : parseRows m it.data with _ | recs
    · simp [load, hhit, hp]
    · rw [load_hit hhit hp, load_hit hhit hp]

/-- C8 witness: the default repository, symbol AAPL, endpoint key-metrics,
extra `period=annual` and limit 5 request exactly the expected URL. -/
theorem C8_witness :
    (load demoRepo ([] : Table Int) 0 (fun _ => Except.ok [2]) "AAPL" "key-metrics" evenModel
        (some 5) "period=annual" 3).requested_url =
      some "https://financialmodelingprep.com/stable/key-metrics?symbol=AAPL&apikey=KEY&period=annual&limit=5" := by
  have h := (C8_request_url demoRepo [] 0 (fun _ => Except.ok [2]) "AAPL" "key-metrics" evenModel
    "period=annual" 3 5 (by decide) (by decide)).1 rfl
  rw [h]
  decide

/-- C9: missing secrets file does not fail construction — `get_api_key`
silently falls back to the hardcoded vendor key, and the repository
constructor accepts any key (even empty) with no validation; no
`ConfigurationError` path exists in the code. -/
theorem C9_hardcoded_key_fallback :
    get_api_key SecretsOutcome.fileNotFound = Except.ok "SasT1HkUMNVFoRdQqorB8GXlZ0q6KDuE" ∧
    (repoInit "" "https://financialmodelingprep.com/stable" 24).api_key = "" :=
  ⟨rfl, rfl⟩

/-- C10: `limit = 0` is falsy in Python, so `load` with limit 0 is
literally the same call as `load` with no limit (the `&limit=` parameter
is omitted); for any nonzero limit the miss-path URL ends in
`&limit={limit}`. -/
theorem C10_limit_zero_omitted {Row Rec : Type} (repo : Repo) (t : Table Row) (now : Int)
    (remote : String → Except RemoteError (List Row)) (symbol endpoint : String)
    (m : Model Row Rec) (extra_params : String) (ttl_days : Int) (n : Int)
    (hn : n ≠ 0) :
    load repo t now remote symbol endpoint m (some 0) extra_params ttl_days =
      load repo t now remote symbol endpoint m none extra_params ttl_days ∧
    (cacheDecision repo t now symbol endpoint = none →
      ∃ pre, (load repo t now remote symbol endpoint m (some n) extra_params
          ttl_days).requested_url = some (pre ++ ("&limit=" ++ toString n))) := by
  constructor
  · rfl
  · intro hmiss
    rw [load_eq_loadMiss hmiss, loadMiss_requested_url]
    rcases build_url_limit_suffix repo endpoint symbol extra_params n hn with ⟨pre, hp⟩
    exact ⟨pre, by rw [hp]⟩

/-- C10 witness: limit 0 equals no limit on a concrete call, and limit 7
puts `&limit=7` at the end of the requested URL. -/
theorem C10_witness :
    load demoRepo ([] : Table Int) 0 (fun _ => Except.ok [2]) "AAPL" "ratios" evenModel
        (some 0) "" 3 =
      load demoRepo ([] : Table Int) 0 (fun _ => Except.ok [2]) "AAPL" "ratios" evenModel
        none "" 3 ∧
    ∃ pre, (load demoRepo ([] : Table Int) 0 (fun _ => Except.ok [2]) "AAPL" "ratios" evenModel
        (some 7) "" 3).requested_url = some (pre ++ ("&limit=" ++ toString (7 : Int))) := by
  have h := C10_limit_zero_omitted demoRepo ([] : Table Int) 0 (fun _ => Except.ok [2]) "AAPL"
    "ratios" evenModel "" 3 7 (by decide)
  exact ⟨h.1, h.2 rfl⟩

end Proto
